import Mathlib

/-!
Verification of the rollout recorder (src/codex-rs/core/src/rollout/recorder.rs).

The development shallowly embeds the two cores of the module:

* the replay parser `get_rollout_history`, which scans the lines of a
  rollout `.jsonl` file, dispatches on the `record_type` discriminant and
  reconstructs an ordered history; and
* the writer task `rollout_writer`, which owns the open file handle,
  optionally writes the session-meta header line first, then drains the
  command mailbox, writing JSON lines via `JsonlWriter.write_line`.

External collaborators (serde serialization/deserialization, the
persistence predicates `is_persisted_response_item` / `is_persisted_event`,
`collect_git_info`) are opaque parameters, gathered in the context
structures `ReplayCtx` and `WriterCtx`.  JSON values are modelled by the
inductive `Json`; the file contents are the list of JSON lines that were
successfully appended.  Faults of the underlying device (`write_all`,
`flush`) are injected through explicit fault lists so that the
error-propagation behaviour of `write_line` can be analysed.
-/

/-- Generic JSON value, the model of `serde_json::Value`.  Objects are
association lists from field name to value. -/
inductive Json where
  | null
  | bool (b : Bool)
  | num (n : Int)
  | str (s : String)
  | arr (elems : List Json)
  | obj (fields : List (String × Json))
  deriving Repr

/-- Model of `serde_json::Value::get(key)`: field lookup on an object,
`none` on any non-object value. -/
def Json.get (v : Json) (key : String) : Option Json :=
  match v with
  | .obj fields => (fields.find? (fun p => p.1 = key)).map (fun p => p.2)
  | _ => none

/-- Model of `Value::as_str`: the payload of a string value, else `none`. -/
def Json.asStr (v : Json) : Option String :=
  match v with
  | .str s => some s
  | _ => none

/-- Model of `if let Some(obj) = v.as_object_mut() { obj.remove(key); }`:
drop the field from an object, leave any other value unchanged. -/
def Json.removeKey (v : Json) (key : String) : Json :=
  match v with
  | .obj fields => .obj (fields.filter (fun p => ¬(p.1 = key)))
  | other => other

/-- Model of `line.trim().is_empty()`: the line consists only of
whitespace. -/
def isBlank (line : String) : Bool :=
  line.data.all (fun c => c.isWhitespace)

/-- The `RolloutItem` sum type, with the payload types of the external
crates (`ResponseItem`, `Event`, `SessionMetaWithGit`) abstracted. -/
inductive RolloutItem (Resp Ev Meta : Type) where
  | ResponseItem (item : Resp)
  | Event (ev : Ev)
  | SessionMeta (meta : Meta)
  deriving Repr

/-- The `InitialHistory` result of replay: no prior history, or the ordered
reconstructed items. -/
inductive InitialHistory (Resp Ev Meta : Type) where
  | New
  | Resumed (items : List (RolloutItem Resp Ev Meta))
  deriving Repr

/-- The external collaborators used by `get_rollout_history`:
`serde_json::from_str` on a line, the typed `serde_json::from_value`
deserializers, and the response-item persistence predicate. -/
structure ReplayCtx (Resp Ev Meta : Type) where
  parseJson : String → Option Json
  deserResponseItem : Json → Option Resp
  deserEvent : Json → Option Ev
  deserSessionMeta : Json → Option Meta
  is_persisted_response_item : Resp → Bool

/-- The `Some("response") | None` arm of the dispatch: attempt to
deserialize the whole value (discriminant included) as a `ResponseItem`;
on success keep it only if it passes the persistence predicate, on
failure skip the line. -/
def responseCase {Resp Ev Meta : Type} (ctx : ReplayCtx Resp Ev Meta) (v : Json) :
    List (RolloutItem Resp Ev Meta) :=
  match ctx.deserResponseItem v with
  | some item =>
    if ctx.is_persisted_response_item item then [RolloutItem.ResponseItem item] else []
  | none => []

/-- Dispatch on `v.get("record_type").and_then(|rt| rt.as_str())`, the
match of the replay loop body in `get_rollout_history`. -/
def dispatchRecord {Resp Ev Meta : Type} (ctx : ReplayCtx Resp Ev Meta) (v : Json) :
    List (RolloutItem Resp Ev Meta) :=
  match (v.get "record_type").bind Json.asStr with
  | some rt =>
    if rt = "state" then []
    else if rt = "event" then
      match ctx.deserEvent (v.removeKey "record_type") with
      | some ev => [RolloutItem.Event ev]
      | none => []
    else if rt = "prev_session_meta" ∨ rt = "session_meta" then
      match ctx.deserSessionMeta (v.removeKey "record_type") with
      | some meta => [RolloutItem.SessionMeta meta]
      | none => []
    else if rt = "response" then responseCase ctx v
    else []
  | none => responseCase ctx v

/-- The items contributed to the history by one line of the file: none for
a blank or unparseable line, else the result of the discriminant
dispatch. -/
def lineItems {Resp Ev Meta : Type} (ctx : ReplayCtx Resp Ev Meta) (line : String) :
    List (RolloutItem Resp Ev Meta) :=
  if isBlank line then []
  else
    match ctx.parseJson line with
    | none => []
    | some v => dispatchRecord ctx v

/-- The accumulated items of the replay loop over the lines of the file. -/
def historyItems {Resp Ev Meta : Type} (ctx : ReplayCtx Resp Ev Meta)
    (lines : List String) : List (RolloutItem Resp Ev Meta) :=
  lines.foldl (fun items line => items ++ lineItems ctx line) []

/-- Model of `RolloutRecorder::get_rollout_history`, with the file already
read and split into lines (`text.lines()`). -/
def get_rollout_history {Resp Ev Meta : Type} (ctx : ReplayCtx Resp Ev Meta)
    (lines : List String) : InitialHistory Resp Ev Meta :=
  let items := historyItems ctx lines
  if items.isEmpty then InitialHistory.New else InitialHistory.Resumed items

/-- The `SessionMetaWithGit` struct: the session meta plus the optional git
info collected at writer start (skipped in serialization when absent). -/
structure SessionMetaWithGit (SMeta Git : Type) where
  meta : SMeta
  git : Option Git
  deriving Repr

/-- The `RolloutCmd` mailbox commands.  The `oneshot` acknowledgement
channel of `Shutdown` is modelled by the acknowledgement counter returned
by the writer. -/
inductive RolloutCmd (Resp Ev Meta : Type) where
  | AddResponseItems (items : List Resp)
  | AddEvents (events : List Ev)
  | AddSessionMeta (meta : Meta)
  | Shutdown
  deriving Repr

/-- I/O errors that `write_line` can return: a `serde_json::to_string`
failure, or a failed `flush`. -/
inductive IoErr where
  | serializeFailed
  | flushFailed
  deriving Repr, DecidableEq

/-- The `JsonlWriter` file handle.  `contents` holds the JSON lines
successfully appended so far; `writeFaults` and `flushFaults` inject a
device fault into the n-th `write_all` or `flush` call (absent entries
mean no fault), and the two counters index into them. -/
structure JsonlWriter where
  contents : List Json
  writeFaults : List Bool
  flushFaults : List Bool
  writeCalls : Nat
  flushCalls : Nat
  deriving Repr

/-- Model of `JsonlWriter::write_line`: serialize (propagating failure
as `?` does), append the line with `let _ = self.file.write_all(..)` —
an append fault loses the line and its error value is discarded — then
`self.file.flush().await?`, whose fault is propagated. -/
def JsonlWriter.write_line (w : JsonlWriter) (json : Option Json) :
    Except IoErr JsonlWriter :=
  match json with
  | none => Except.error IoErr.serializeFailed
  | some j =>
    let writeFailed := w.writeFaults.getD w.writeCalls false
    let w1 : JsonlWriter :=
      { w with
        contents := w.contents ++ (if writeFailed then [] else [j])
        writeCalls := w.writeCalls + 1 }
    let flushFailed := w1.flushFaults.getD w1.flushCalls false
    let w2 : JsonlWriter := { w1 with flushCalls := w1.flushCalls + 1 }
    if flushFailed then Except.error IoErr.flushFailed else Except.ok w2

/-- The external collaborators used by the writer task: the serde
serializers (an event or a session meta serializes to the flattened field
list of its JSON object; `none` is a serialization failure), the
response-item persistence predicate, and the awaited result of
`collect_git_info`. -/
structure WriterCtx (Resp Ev SMeta Git : Type) where
  serializeResponseItem : Resp → Option Json
  serializeEvent : Ev → Option (List (String × Json))
  serializeSessionMeta : SessionMetaWithGit SMeta Git → Option (List (String × Json))
  is_persisted_response_item : Resp → Bool
  collect_git_info : Option Git

/-- Serialization of a `SessionMetaLine { record_type, meta }`: the
`record_type` discriminant followed by the flattened meta fields. -/
def sessionMetaLineJson {Resp Ev SMeta Git : Type} (ctx : WriterCtx Resp Ev SMeta Git)
    (record_type : String) (m : SessionMetaWithGit SMeta Git) : Option Json :=
  (ctx.serializeSessionMeta m).map
    (fun fields => Json.obj (("record_type", Json.str record_type) :: fields))

/-- Serialization of an `EventLine { record_type: "event", event }`. -/
def eventLineJson {Resp Ev SMeta Git : Type} (ctx : WriterCtx Resp Ev SMeta Git)
    (event : Ev) : Option Json :=
  (ctx.serializeEvent event).map
    (fun fields => Json.obj (("record_type", Json.str "event") :: fields))

/-- The `AddResponseItems` arm of the writer loop: each item passing
`is_persisted_response_item` is written via `write_line`, whose error
aborts the loop (`?`); non-passing items are silently skipped. -/
def writeResponseItems {Resp Ev SMeta Git : Type} (ctx : WriterCtx Resp Ev SMeta Git)
    (w : JsonlWriter) : List Resp → Except IoErr JsonlWriter
  | [] => Except.ok w
  | item :: rest =>
    if ctx.is_persisted_response_item item then
      match w.write_line (ctx.serializeResponseItem item) with
      | Except.error e => Except.error e
      | Except.ok w' => writeResponseItems ctx w' rest
    else writeResponseItems ctx w rest

/-- The `AddEvents` arm of the writer loop: every event of the batch is
written as an `EventLine`; `write_line` errors abort the loop (`?`). -/
def writeEvents {Resp Ev SMeta Git : Type} (ctx : WriterCtx Resp Ev SMeta Git)
    (w : JsonlWriter) : List Ev → Except IoErr JsonlWriter
  | [] => Except.ok w
  | event :: rest =>
    match w.write_line (eventLineJson ctx event) with
    | Except.error e => Except.error e
    | Except.ok w' => writeEvents ctx w' rest

/-- The command-draining loop of `rollout_writer` (`while let Some(cmd) =
rx.recv().await`), applied to the sequence of commands in dequeue order.
The returned `Nat` counts the `ack.send(())` acknowledgements fired by
`Shutdown` commands. -/
def processCmds {Resp Ev SMeta Git : Type} (ctx : WriterCtx Resp Ev SMeta Git) :
    JsonlWriter → Nat → List (RolloutCmd Resp Ev (SessionMetaWithGit SMeta Git)) →
    Except IoErr (JsonlWriter × Nat)
  | w, acks, [] => Except.ok (w, acks)
  | w, acks, RolloutCmd.AddResponseItems items :: rest =>
    match writeResponseItems ctx w items with
    | Except.error e => Except.error e
    | Except.ok w' => processCmds ctx w' acks rest
  | w, acks, RolloutCmd.AddEvents events :: rest =>
    match writeEvents ctx w events with
    | Except.error e => Except.error e
    | Except.ok w' => processCmds ctx w' acks rest
  | w, acks, RolloutCmd.AddSessionMeta m :: rest =>
    match w.write_line (sessionMetaLineJson ctx "prev_session_meta" m) with
    | Except.error e => Except.error e
    | Except.ok w' => processCmds ctx w' acks rest
  | w, acks, RolloutCmd.Shutdown :: rest => processCmds ctx w (acks + 1) rest

/-- Model of the `rollout_writer` task: if a `SessionMeta` was supplied,
await `collect_git_info`, build the `SessionMetaWithGit` and write it as
the `record_type: "session_meta"` first line, then drain the mailbox. -/
def rollout_writer {Resp Ev SMeta Git : Type} (ctx : WriterCtx Resp Ev SMeta Git)
    (file : JsonlWriter) (meta : Option SMeta)
    (cmds : List (RolloutCmd Resp Ev (SessionMetaWithGit SMeta Git))) :
    Except IoErr (JsonlWriter × Nat) :=
  match meta with
  | some session_meta =>
    let git_info := ctx.collect_git_info
    let session_meta_with_git : SessionMetaWithGit SMeta Git :=
      { meta := session_meta, git := git_info }
    match file.write_line (sessionMetaLineJson ctx "session_meta" session_meta_with_git) with
    | Except.error e => Except.error e
    | Except.ok w => processCmds ctx w 0 cmds
  | none => processCmds ctx file 0 cmds

/-- Model of `RolloutRecorder::record_event` on the handle side: an event
failing `is_persisted_event` returns `Ok(())` without enqueueing anything;
a passing event is enqueued as a singleton `AddEvents` batch.  The result
is the command enqueued on the mailbox, if any. -/
def record_event {Resp Ev Meta : Type} (is_persisted_event : Ev → Bool) (event : Ev) :
    Option (RolloutCmd Resp Ev Meta) :=
  if is_persisted_event event = false then none
  else some (RolloutCmd.AddEvents [event])

/-- Model of `RolloutRecorder::record_response_item` on the handle side:
an item failing `is_persisted_response_item` is dropped without being
enqueued; a passing item is enqueued as a singleton batch. -/
def record_response_item {Resp Ev Meta : Type}
    (is_persisted_response_item : Resp → Bool) (item : Resp) :
    Option (RolloutCmd Resp Ev Meta) :=
  if is_persisted_response_item item = false then none
  else some (RolloutCmd.AddResponseItems [item])

/-- A concrete replay context over `Nat` payloads.  `parseJson` is a small
table standing for `serde_json::from_str` on a handful of test lines; the
typed deserializers read a numeric field; response items persist exactly
when even. -/
def toyReplayCtx : ReplayCtx Nat Nat Nat where
  parseJson := fun line =>
    if line = "ev" then
      some (Json.obj [("record_type", Json.str "event"), ("n", Json.num 1)])
    else if line = "resp" then some (Json.obj [("n", Json.num 2)])
    else if line = "oddresp" then some (Json.obj [("n", Json.num 5)])
    else if line = "meta" then
      some (Json.obj [("record_type", Json.str "prev_session_meta"), ("id", Json.num 3)])
    else if line = "curmeta" then
      some (Json.obj [("record_type", Json.str "session_meta"), ("id", Json.num 6)])
    else if line = "priormeta" then
      some (Json.obj [("record_type", Json.str "prior_session_meta"), ("id", Json.num 3)])
    else if line = "state" then some (Json.obj [("record_type", Json.str "state")])
    else if line = "weird" then
      some (Json.obj [("record_type", Json.num 9), ("n", Json.num 4)])
    else if line = "unknown" then some (Json.obj [("record_type", Json.str "mystery")])
    else none
  deserResponseItem := fun v =>
    match v.get "n" with
    | some (Json.num k) => some k.toNat
    | _ => none
  deserEvent := fun v =>
    match v.get "n" with
    | some (Json.num k) => some k.toNat
    | _ => none
  deserSessionMeta := fun v =>
    match v.get "id" with
    | some (Json.num k) => some k.toNat
    | _ => none
  is_persisted_response_item := fun n => decide (n % 2 = 0)

/-- A concrete writer context over `Nat` payloads. -/
def toyWriterCtx : WriterCtx Nat Nat Nat Nat where
  serializeResponseItem := fun n => some (Json.num (Int.ofNat n))
  serializeEvent := fun e => some [("payload", Json.num (Int.ofNat e))]
  serializeSessionMeta := fun m => some [("id", Json.num (Int.ofNat m.meta))]
  is_persisted_response_item := fun n => decide (n % 2 = 0)
  collect_git_info := none

/-- A fresh, fault-free file handle on an empty file. -/
def freshWriter : JsonlWriter where
  contents := []
  writeFaults := []
  flushFaults := []
  writeCalls := 0
  flushCalls := 0

/-- A handle whose first `write_all` call hits a disk fault. -/
def writeFaultWriter : JsonlWriter where
  contents := []
  writeFaults := [true]
  flushFaults := []
  writeCalls := 0
  flushCalls := 0

/-- A handle whose first `flush` call hits a disk fault. -/
def flushFaultWriter : JsonlWriter where
  contents := []
  writeFaults := []
  flushFaults := [true]
  writeCalls := 0
  flushCalls := 0

/-- An event persistence predicate that rejects every event. -/
def failEventPred : Nat → Bool := fun _ => false

theorem foldl_append_eq_flatten {α β : Type} (f : α → List β) :
    ∀ (lines : List α) (acc : List β),
      lines.foldl (fun items l => items ++ f l) acc = acc ++ (lines.map f).flatten := by
  intro lines
  induction lines with
  | nil => intro acc; simp
  | cons l rest ih => intro acc; simp [ih]

theorem historyItems_eq_flatten {Resp Ev Meta : Type} (ctx : ReplayCtx Resp Ev Meta)
    (lines : List String) :
    historyItems ctx lines = (lines.map (lineItems ctx)).flatten := by
  simpa [historyItems] using foldl_append_eq_flatten (lineItems ctx) lines []

theorem lineItems_of_blank {Resp Ev Meta : Type} (ctx : ReplayCtx Resp Ev Meta)
    (line : String) (h : isBlank line = true) : lineItems ctx line = [] := by
  simp [lineItems, h]

theorem lineItems_of_parse_none {Resp Ev Meta : Type} (ctx : ReplayCtx Resp Ev Meta)
    (line : String) (h : ctx.parseJson line = none) : lineItems ctx line = [] := by
  by_cases hb : isBlank line <;> simp [lineItems, hb, h]

theorem lineItems_eq_dispatch {Resp Ev Meta : Type} (ctx : ReplayCtx Resp Ev Meta)
    (line : String) (v : Json)
    (hb : isBlank line = false) (hp : ctx.parseJson line = some v) :
    lineItems ctx line = dispatchRecord ctx v := by
  simp [lineItems, hb, hp]

theorem write_line_no_faults (w : JsonlWriter) (j : Json)
    (hw : w.writeFaults = []) (hf : w.flushFaults = []) :
    w.write_line (some j) = Except.ok
      { w with
        contents := w.contents ++ [j]
        writeCalls := w.writeCalls + 1
        flushCalls := w.flushCalls + 1 } := by
  simp [JsonlWriter.write_line, hw, hf]

theorem write_line_ok_fields {w w' : JsonlWriter} {json : Option Json}
    (h : w.write_line json = Except.ok w') :
    (∃ δ, w'.contents = w.contents ++ δ) ∧
      w'.writeFaults = w.writeFaults ∧ w'.flushFaults = w.flushFaults := by
  match json with
  | none => simp [JsonlWriter.write_line] at h
  | some j =>
    simp only [JsonlWriter.write_line] at h
    split at h
    · exact absurd h (by simp)
    · injection h with h
      exact ⟨⟨_, by rw [← h]⟩, by rw [← h], by rw [← h]⟩

theorem writeResponseItems_ok_fields {Resp Ev SMeta Git : Type}
    (ctx : WriterCtx Resp Ev SMeta Git) :
    ∀ (items : List Resp) (w w' : JsonlWriter),
      writeResponseItems ctx w items = Except.ok w' →
      (∃ δ, w'.contents = w.contents ++ δ) ∧
        w'.writeFaults = w.writeFaults ∧ w'.flushFaults = w.flushFaults := by
  intro items
  induction items with
  | nil =>
    intro w w' h
    simp only [writeResponseItems] at h
    injection h with h
    subst h
    exact ⟨⟨[], by simp⟩, rfl, rfl⟩
  | cons item rest ih =>
    intro w w' h
    unfold writeResponseItems at h
    by_cases hp : ctx.is_persisted_response_item item
    · simp only [hp, if_true] at h
      cases hw : w.write_line (ctx.serializeResponseItem item) with
      | error e => rw [hw] at h; cases h
      | ok w1 =>
        rw [hw] at h
        simp only at h
        obtain ⟨⟨δ1, hc1⟩, hwf1, hff1⟩ := write_line_ok_fields hw
        obtain ⟨⟨δ2, hc2⟩, hwf2, hff2⟩ := ih w1 w' h
        exact ⟨⟨δ1 ++ δ2, by rw [hc2, hc1, List.append_assoc]⟩,
          by rw [hwf2, hwf1], by rw [hff2, hff1]⟩
    · simp only [hp, if_false] at h
      exact ih w w' h

theorem writeEvents_ok_fields {Resp Ev SMeta Git : Type}
    (ctx : WriterCtx Resp Ev SMeta Git) :
    ∀ (events : List Ev) (w w' : JsonlWriter),
      writeEvents ctx w events = Except.ok w' →
      (∃ δ, w'.contents = w.contents ++ δ) ∧
        w'.writeFaults = w.writeFaults ∧ w'.flushFaults = w.flushFaults := by
  intro events
  induction events with
  | nil =>
    intro w w' h
    simp only [writeEvents] at h
    injection h with h
    subst h
    exact ⟨⟨[], by simp⟩, rfl, rfl⟩
  | cons event rest ih =>
    intro w w' h
    unfold writeEvents at h
    cases hw : w.write_line (eventLineJson ctx event) with
    | error e => rw [hw] at h; cases h
    | ok w1 =>
      rw [hw] at h
      simp only at h
      obtain ⟨⟨δ1, hc1⟩, hwf1, hff1⟩ := write_line_ok_fields hw
      obtain ⟨⟨δ2, hc2⟩, hwf2, hff2⟩ := ih w1 w' h
      exact ⟨⟨δ1 ++ δ2, by rw [hc2, hc1, List.append_assoc]⟩,
        by rw [hwf2, hwf1], by rw [hff2, hff1]⟩

theorem processCmds_ok_fields {Resp Ev SMeta Git : Type}
    (ctx : WriterCtx Resp Ev SMeta Git) :
    ∀ (cmds : List (RolloutCmd Resp Ev (SessionMetaWithGit SMeta Git)))
      (w : JsonlWriter) (acks : Nat) (w' : JsonlWriter) (acks' : Nat),
      processCmds ctx w acks cmds = Except.ok (w', acks') →
      (∃ δ, w'.contents = w.contents ++ δ) ∧
        w'.writeFaults = w.writeFaults ∧ w'.flushFaults = w.flushFaults := by
  intro cmds
  induction cmds with
  | nil =>
    intro w acks w' acks' h
    simp only [processCmds] at h
    injection h with h
    obtain ⟨h1, h2⟩ := Prod.mk.inj h
    subst h1
    exact ⟨⟨[], by simp⟩, rfl, rfl⟩
  | cons c rest ih =>
    intro w acks w' acks' h
    cases c with
    | AddResponseItems items =>
      unfold processCmds at h
      cases hw : writeResponseItems ctx w items with
      | error e => rw [hw] at h; cases h
      | ok w1 =>
        rw [hw] at h
        simp only at h
        obtain ⟨⟨δ1, hc1⟩, hwf1, hff1⟩ := writeResponseItems_ok_fields ctx items w w1 hw
        obtain ⟨⟨δ2, hc2⟩, hwf2, hff2⟩ := ih w1 acks w' acks' h
        exact ⟨⟨δ1 ++ δ2, by rw [hc2, hc1, List.append_assoc]⟩,
          by rw [hwf2, hwf1], by rw [hff2, hff1]⟩
    | AddEvents events =>
      unfold processCmds at h
      cases hw : writeEvents ctx w events with
      | error e => rw [hw] at h; cases h
      | ok w1 =>
        rw [hw] at h
        simp only at h
        obtain ⟨⟨δ1, hc1⟩, hwf1, hff1⟩ := writeEvents_ok_fields ctx events w w1 hw
        obtain ⟨⟨δ2, hc2⟩, hwf2, hff2⟩ := ih w1 acks w' acks' h
        exact ⟨⟨δ1 ++ δ2, by rw [hc2, hc1, List.append_assoc]⟩,
          by rw [hwf2, hwf1], by rw [hff2, hff1]⟩
    | AddSessionMeta m =>
      unfold processCmds at h
      cases hw : w.write_line (sessionMetaLineJson ctx "prev_session_meta" m) with
      | error e => rw [hw] at h; cases h
      | ok w1 =>
        rw [hw] at h
        simp only at h
        obtain ⟨⟨δ1, hc1⟩, hwf1, hff1⟩ := write_line_ok_fields hw
        obtain ⟨⟨δ2, hc2⟩, hwf2, hff2⟩ := ih w1 acks w' acks' h
        exact ⟨⟨δ1 ++ δ2, by rw [hc2, hc1, List.append_assoc]⟩,
          by rw [hwf2, hwf1], by rw [hff2, hff1]⟩
    | Shutdown =>
      unfold processCmds at h
      exact ih w (acks + 1) w' acks' h

theorem processCmds_append {Resp Ev SMeta Git : Type}
    (ctx : WriterCtx Resp Ev SMeta Git) :
    ∀ (l1 l2 : List (RolloutCmd Resp Ev (SessionMetaWithGit SMeta Git)))
      (w : JsonlWriter) (acks : Nat),
      processCmds ctx w acks (l1 ++ l2) =
        match processCmds ctx w acks l1 with
        | Except.error e => Except.error e
        | Except.ok (w', a') => processCmds ctx w' a' l2 := by
  intro l1
  induction l1 with
  | nil => intro l2 w acks; simp [processCmds]
  | cons c rest ih =>
    intro l2 w acks
    cases c with
    | AddResponseItems items =>
      simp only [List.cons_append, processCmds]
      cases hw : writeResponseItems ctx w items with
      | error e => rfl
      | ok w1 => exact ih l2 w1 acks
    | AddEvents events =>
      simp only [List.cons_append, processCmds]
      cases hw : writeEvents ctx w events with
      | error e => rfl
      | ok w1 => exact ih l2 w1 acks
    | AddSessionMeta m =>
      simp only [List.cons_append, processCmds]
      cases hw : w.write_line (sessionMetaLineJson ctx "prev_session_meta" m) with
      | error e => rfl
      | ok w1 => exact ih l2 w1 acks
    | Shutdown =>
      simp only [List.cons_append, processCmds]
      exact ih l2 w (acks + 1)

theorem writeEvents_no_faults {Resp Ev SMeta Git : Type}
    (ctx : WriterCtx Resp Ev SMeta Git) :
    ∀ (events : List Ev) (w : JsonlWriter),
      w.writeFaults = [] → w.flushFaults = [] →
      (∀ e ∈ events, (ctx.serializeEvent e).isSome = true) →
      ∃ w', writeEvents ctx w events = Except.ok w' ∧
        w'.contents = w.contents ++ events.map (fun e =>
          Json.obj (("record_type", Json.str "event") :: (ctx.serializeEvent e).getD [])) := by
  intro events
  induction events with
  | nil => intro w _ _ _; exact ⟨w, by simp [writeEvents]⟩
  | cons event rest ih =>
    intro w hwf hff hs
    obtain ⟨fields, hfields⟩ := Option.isSome_iff_exists.mp (hs event (by simp))
    have hline : eventLineJson ctx event =
        some (Json.obj (("record_type", Json.str "event") :: fields)) := by
      simp [eventLineJson, hfields]
    obtain ⟨w', hrest, hcontents⟩ :=
      ih { w with
            contents := w.contents ++ [Json.obj (("record_type", Json.str "event") :: fields)]
            writeCalls := w.writeCalls + 1
            flushCalls := w.flushCalls + 1 }
        (by simpa using hwf) (by simpa using hff) (fun e he => hs e (by simp [he]))
    refine ⟨w', ?_, ?_⟩
    · unfold writeEvents
      rw [hline, write_line_no_faults w _ hwf hff]
      exact hrest
    · simp [hcontents, hfields, List.append_assoc]

theorem write_line_flush_fault (w : JsonlWriter) (j : Json)
    (hf : w.flushFaults.getD w.flushCalls false = true) :
    w.write_line (some j) = Except.error IoErr.flushFailed := by
  rw [List.getD_eq_getElem?_getD] at hf
  simp [JsonlWriter.write_line, hf]

theorem write_line_success (w : JsonlWriter) (j : Json)
    (hw : w.writeFaults.getD w.writeCalls false = false)
    (hf : w.flushFaults.getD w.flushCalls false = false) :
    w.write_line (some j) = Except.ok
      { w with
        contents := w.contents ++ [j]
        writeCalls := w.writeCalls + 1
        flushCalls := w.flushCalls + 1 } := by
  rw [List.getD_eq_getElem?_getD] at hw hf
  simp [JsonlWriter.write_line, hw, hf]

theorem flatten_eq_nil {α β : Type} (f : α → List β) :
    ∀ (l : List α), (∀ x ∈ l, f x = []) → (l.map f).flatten = [] := by
  intro l
  induction l with
  | nil => intro _; rfl
  | cons x rest ih =>
    intro h
    simp [h x (by simp), ih (fun y hy => h y (by simp [hy]))]

theorem dispatchRecord_of_skip {Resp Ev Meta : Type} (ctx : ReplayCtx Resp Ev Meta)
    (v : Json)
    (h : (v.get "record_type").bind Json.asStr = some "state" ∨
      ∃ s, (v.get "record_type").bind Json.asStr = some s ∧
        s ≠ "state" ∧ s ≠ "event" ∧ s ≠ "prev_session_meta" ∧
        s ≠ "session_meta" ∧ s ≠ "response") :
    dispatchRecord ctx v = [] := by
  cases h with
  | inl h => simp [dispatchRecord, h]
  | inr h =>
    obtain ⟨s, hs, h1, h2, h3, h4, h5⟩ := h
    simp [dispatchRecord, hs, h1, h2, h3, h4, h5]

theorem lineItems_of_skipline {Resp Ev Meta : Type} (ctx : ReplayCtx Resp Ev Meta)
    (line : String)
    (h : isBlank line = true ∨ ctx.parseJson line = none ∨
      ∃ v, ctx.parseJson line = some v ∧
        ((v.get "record_type").bind Json.asStr = some "state" ∨
         ∃ s, (v.get "record_type").bind Json.asStr = some s ∧
           s ≠ "state" ∧ s ≠ "event" ∧ s ≠ "prev_session_meta" ∧
           s ≠ "session_meta" ∧ s ≠ "response")) :
    lineItems ctx line = [] := by
  rcases h with h | h | ⟨v, hv, hd⟩
  · exact lineItems_of_blank ctx line h
  · exact lineItems_of_parse_none ctx line h
  · by_cases hb : isBlank line = true
    · exact lineItems_of_blank ctx line hb
    · rw [lineItems_eq_dispatch ctx line v (by simpa using hb) hv]
      exact dispatchRecord_of_skip ctx v hd

/-- C7: For every input file, a blank line is skipped and a line that
fails to parse as generic JSON is skipped without aborting the scan, and
the remaining lines contribute their reconstructed records to the history
in exactly their file order (the history is the in-order concatenation of
the per-line results). -/
theorem replay_tolerant_and_ordered {Resp Ev Meta : Type}
    (ctx : ReplayCtx Resp Ev Meta) :
    (∀ lines, historyItems ctx lines = (lines.map (lineItems ctx)).flatten) ∧
    (∀ line, isBlank line = true → lineItems ctx line = []) ∧
    (∀ line, ctx.parseJson line = none → lineItems ctx line = []) ∧
    (∀ pre post bad, isBlank bad = true ∨ ctx.parseJson bad = none →
      historyItems ctx (pre ++ bad :: post) = historyItems ctx (pre ++ post)) := by
  refine ⟨historyItems_eq_flatten ctx, lineItems_of_blank ctx,
    lineItems_of_parse_none ctx, ?_⟩
  intro pre post bad hbad
  have hnil : lineItems ctx bad = [] := by
    cases hbad with
    | inl h => exact lineItems_of_blank ctx bad h
    | inr h => exact lineItems_of_parse_none ctx bad h
  simp [historyItems_eq_flatten, hnil]

/-- C7 witness: inserting an unparseable line between two valid lines
leaves the reconstructed history unchanged. -/
theorem replay_tolerant_and_ordered_witness :
    historyItems toyReplayCtx (["ev"] ++ "not json" :: ["resp"]) =
      historyItems toyReplayCtx (["ev"] ++ ["resp"]) :=
  (replay_tolerant_and_ordered toyReplayCtx).2.2.2 ["ev"] ["resp"] "not json"
    (Or.inr rfl)

/-- C8: get_rollout_history returns New exactly when the reconstructed
sequence is empty — in particular for an empty file or a file of only
blank, malformed, state-tagged, or unrecognized-discriminant lines — and
otherwise returns the non-empty sequence in file order. -/
theorem replay_no_history_iff_empty {Resp Ev Meta : Type}
    (ctx : ReplayCtx Resp Ev Meta) :
    (∀ lines, get_rollout_history ctx lines = InitialHistory.New ↔
      historyItems ctx lines = []) ∧
    (∀ lines, historyItems ctx lines ≠ [] →
      get_rollout_history ctx lines =
        InitialHistory.Resumed (historyItems ctx lines)) ∧
    (get_rollout_history ctx [] = InitialHistory.New) ∧
    (∀ lines,
      (∀ line ∈ lines, isBlank line = true ∨ ctx.parseJson line = none ∨
        ∃ v, ctx.parseJson line = some v ∧
          ((v.get "record_type").bind Json.asStr = some "state" ∨
           ∃ s, (v.get "record_type").bind Json.asStr = some s ∧
             s ≠ "state" ∧ s ≠ "event" ∧ s ≠ "prev_session_meta" ∧
             s ≠ "session_meta" ∧ s ≠ "response")) →
      get_rollout_history ctx lines = InitialHistory.New) := by
  have hiff : ∀ lines, get_rollout_history ctx lines = InitialHistory.New ↔
      historyItems ctx lines = [] := by
    intro lines
    by_cases h : historyItems ctx lines = []
    · simp [get_rollout_history, h]
    · simp [get_rollout_history, h]
  refine ⟨hiff, ?_, ?_, ?_⟩
  · intro lines h
    simp [get_rollout_history, h]
  · rfl
  · intro lines hall
    refine (hiff lines).mpr ?_
    rw [historyItems_eq_flatten]
    exact flatten_eq_nil (lineItems ctx) lines
      (fun line hl => lineItems_of_skipline ctx line (hall line hl))

/-- C8 witness: a file of a blank line, a malformed line, a state-tagged
line and an unrecognized-discriminant line yields no prior history. -/
theorem replay_no_history_iff_empty_witness :
    get_rollout_history toyReplayCtx ["", "bad json", "state", "unknown"] =
      InitialHistory.New :=
  (replay_no_history_iff_empty toyReplayCtx).2.2.2
    ["", "bad json", "state", "unknown"] (by
      intro line hl
      simp only [List.mem_cons, List.not_mem_nil, or_false] at hl
      rcases hl with rfl | rfl | rfl | rfl
      · exact Or.inl rfl
      · exact Or.inr (Or.inl rfl)
      · exact Or.inr (Or.inr ⟨Json.obj [("record_type", Json.str "state")], rfl,
          Or.inl rfl⟩)
      · exact Or.inr (Or.inr ⟨Json.obj [("record_type", Json.str "mystery")], rfl,
          Or.inr ⟨"mystery", rfl, by decide, by decide, by decide, by decide,
            by decide⟩⟩))

/-- C6: During replay, a non-blank line whose discriminant is absent or
"response" and which deserializes as a ResponseItem is appended iff it
passes the persistence predicate at replay time; a deserialization
failure skips the line without aborting the scan. -/
theorem replay_response_refilter {Resp Ev Meta : Type}
    (ctx : ReplayCtx Resp Ev Meta) (line : String) (v : Json)
    (hb : isBlank line = false) (hp : ctx.parseJson line = some v)
    (hrt : (v.get "record_type").bind Json.asStr = none ∨
      (v.get "record_type").bind Json.asStr = some "response") :
    (∀ item, ctx.deserResponseItem v = some item →
      lineItems ctx line =
        if ctx.is_persisted_response_item item then [RolloutItem.ResponseItem item]
        else []) ∧
    (ctx.deserResponseItem v = none → lineItems ctx line = []) := by
  have hd : lineItems ctx line = responseCase ctx v := by
    rw [lineItems_eq_dispatch ctx line v hb hp]
    cases hrt with
    | inl h => simp [dispatchRecord, h]
    | inr h => simp [dispatchRecord, h]
  constructor
  · intro item hi
    rw [hd]
    simp [responseCase, hi]
  · intro hi
    rw [hd]
    simp [responseCase, hi]

/-- C6 witness: an even (persisted) item on a discriminant-free line is
reconstructed. -/
theorem replay_response_refilter_witness :
    lineItems toyReplayCtx "resp" =
      if toyReplayCtx.is_persisted_response_item 2 then [RolloutItem.ResponseItem 2]
      else [] :=
  (replay_response_refilter toyReplayCtx "resp" (Json.obj [("n", Json.num 2)])
    rfl rfl (Or.inl rfl)).1 2 rfl

/-- C9: A line whose record_type field is present but not a JSON string is
dispatched exactly like a line with no discriminant: the parser attempts
the ResponseItem case (predicate included) instead of treating it as an
unrecognized discriminant. -/
theorem replay_nonstring_discriminant {Resp Ev Meta : Type}
    (ctx : ReplayCtx Resp Ev Meta) (line : String) (v rt : Json)
    (hb : isBlank line = false) (hp : ctx.parseJson line = some v)
    (hget : v.get "record_type" = some rt) (hstr : Json.asStr rt = none) :
    lineItems ctx line = responseCase ctx v ∧
    (∀ line2 v2, isBlank line2 = false → ctx.parseJson line2 = some v2 →
      v2.get "record_type" = none → lineItems ctx line2 = responseCase ctx v2) := by
  constructor
  · rw [lineItems_eq_dispatch ctx line v hb hp]
    simp [dispatchRecord, hget, hstr]
  · intro line2 v2 hb2 hp2 hget2
    rw [lineItems_eq_dispatch ctx line2 v2 hb2 hp2]
    simp [dispatchRecord, hget2]

/-- C9 witness: a line with a numeric record_type is parsed through the
ResponseItem case. -/
theorem replay_nonstring_discriminant_witness :
    lineItems toyReplayCtx "weird" =
      responseCase toyReplayCtx
        (Json.obj [("record_type", Json.num 9), ("n", Json.num 4)]) :=
  (replay_nonstring_discriminant toyReplayCtx "weird"
    (Json.obj [("record_type", Json.num 9), ("n", Json.num 4)]) (Json.num 9)
    rfl rfl rfl rfl).1

/-- C10: An "event"-tagged line that deserializes as an Event is appended
to the history with no re-check of any event persistence predicate, in
contrast to the ResponseItem re-filtering. -/
theorem replay_event_no_refilter {Resp Ev Meta : Type}
    (ctx : ReplayCtx Resp Ev Meta) (line : String) (v : Json) (ev : Ev)
    (hb : isBlank line = false) (hp : ctx.parseJson line = some v)
    (hrt : (v.get "record_type").bind Json.asStr = some "event")
    (hd : ctx.deserEvent (v.removeKey "record_type") = some ev) :
    lineItems ctx line = [RolloutItem.Event ev] ∧
    ∀ is_persisted_event : Ev → Bool, is_persisted_event ev = false →
      lineItems ctx line = [RolloutItem.Event ev] := by
  have h1 : lineItems ctx line = [RolloutItem.Event ev] := by
    rw [lineItems_eq_dispatch ctx line v hb hp]
    simp [dispatchRecord, hrt, hd]
  exact ⟨h1, fun _ _ => h1⟩

/-- C10 witness: an event line is reconstructed even under an event
predicate that rejects every event. -/
theorem replay_event_no_refilter_witness :
    lineItems toyReplayCtx "ev" = [RolloutItem.Event 1] :=
  (replay_event_no_refilter toyReplayCtx "ev"
    (Json.obj [("record_type", Json.str "event"), ("n", Json.num 1)]) 1
    rfl rfl rfl rfl).2 failEventPred rfl

/-- C4 counterexample: a line tagged "prior_session_meta" is NOT parsed as
a session header — it falls into the unrecognized-discriminant branch and
is skipped even though it would deserialize — and the prior-session header
the writer emits is tagged "prev_session_meta", which lies outside the
claimed discriminant set. -/
theorem replay_prior_session_meta_counterexample :
    ((toyReplayCtx.parseJson "priormeta").bind
      (fun v => (v.get "record_type").bind Json.asStr)) =
        some "prior_session_meta" ∧
    ((toyReplayCtx.parseJson "priormeta").bind
      (fun v => toyReplayCtx.deserSessionMeta (v.removeKey "record_type"))) =
        some 3 ∧
    lineItems toyReplayCtx "priormeta" = [] ∧
    (processCmds toyWriterCtx freshWriter 0
        [RolloutCmd.AddSessionMeta { meta := 3, git := none }]).map
      (fun r => r.1.contents) =
      Except.ok [Json.obj [("record_type", Json.str "prev_session_meta"),
        ("id", Json.num 3)]] ∧
    "prev_session_meta" ∉ ["session_meta", "prior_session_meta", "event", "state"] :=
  ⟨rfl, rfl, rfl, rfl, by decide⟩

/-- C4 (amended): replay deserializes lines whose record_type equals
"session_meta" or "prev_session_meta" as session headers and appends them
on success; the prior-session header written by the writer task carries
the discriminant "prev_session_meta", an element of the actual
discriminant set \x7bsession_meta, prev_session_meta, event, state\x7d. -/
theorem replay_session_meta_dispatch {Resp Ev Meta : Type}
    (ctx : ReplayCtx Resp Ev Meta) (line : String) (v : Json) (m : Meta)
    (hb : isBlank line = false) (hp : ctx.parseJson line = some v)
    (hrt : (v.get "record_type").bind Json.asStr = some "session_meta" ∨
      (v.get "record_type").bind Json.asStr = some "prev_session_meta")
    (hd : ctx.deserSessionMeta (v.removeKey "record_type") = some m) :
    lineItems ctx line = [RolloutItem.SessionMeta m] ∧
    (∀ (Resp2 Ev2 SMeta2 Git2 : Type) (wctx : WriterCtx Resp2 Ev2 SMeta2 Git2)
      (w : JsonlWriter) (acks : Nat) (pm : SessionMetaWithGit SMeta2 Git2)
      (fields : List (String × Json))
      (rest : List (RolloutCmd Resp2 Ev2 (SessionMetaWithGit SMeta2 Git2))),
      w.writeFaults = [] → w.flushFaults = [] →
      wctx.serializeSessionMeta pm = some fields →
      processCmds wctx w acks (RolloutCmd.AddSessionMeta pm :: rest) =
        processCmds wctx
          { w with
            contents := w.contents ++
              [Json.obj (("record_type", Json.str "prev_session_meta") :: fields)]
            writeCalls := w.writeCalls + 1
            flushCalls := w.flushCalls + 1 } acks rest) ∧
    "prev_session_meta" ∈ ["session_meta", "prev_session_meta", "event", "state"] := by
  refine ⟨?_, ?_, by decide⟩
  · rw [lineItems_eq_dispatch ctx line v hb hp]
    cases hrt with
    | inl h => simp [dispatchRecord, h, hd]
    | inr h => simp [dispatchRecord, h, hd]
  · intro Resp2 Ev2 SMeta2 Git2 wctx w acks pm fields rest hwf hff hser
    have hline : sessionMetaLineJson wctx "prev_session_meta" pm =
        some (Json.obj (("record_type", Json.str "prev_session_meta") :: fields)) := by
      simp [sessionMetaLineJson, hser]
    simp only [processCmds]
    rw [hline, write_line_no_faults w _ hwf hff]

/-- C4 witness: a "prev_session_meta"-tagged line is reconstructed as a
session header. -/
theorem replay_session_meta_dispatch_witness :
    lineItems toyReplayCtx "meta" = [RolloutItem.SessionMeta 3] :=
  (replay_session_meta_dispatch toyReplayCtx "meta"
    (Json.obj [("record_type", Json.str "prev_session_meta"), ("id", Json.num 3)]) 3
    rfl rfl (Or.inr rfl) rfl).1

/-- C1 counterexample: after dequeuing Shutdown the writer acknowledges
(ack count 1) but the loop does not terminate — a response-item command
dequeued after the Shutdown is still processed and its line written. -/
theorem writer_shutdown_counterexample :
    (rollout_writer toyWriterCtx freshWriter none
        [RolloutCmd.Shutdown, RolloutCmd.AddResponseItems [4]]).map
      (fun r => (r.1.contents, r.2)) =
      Except.ok ([Json.num 4], 1) := rfl

/-- C1 (amended): on dequeuing a Shutdown command the writer fires the
one-shot acknowledgement and continues its loop unchanged: every command
dequeued after the Shutdown is processed exactly as it would have been
without it.  The loop ends only when the command stream does. -/
theorem writer_shutdown_acks_and_continues {Resp Ev SMeta Git : Type}
    (ctx : WriterCtx Resp Ev SMeta Git) (w : JsonlWriter) (acks : Nat)
    (pre post : List (RolloutCmd Resp Ev (SessionMetaWithGit SMeta Git))) :
    processCmds ctx w acks (pre ++ RolloutCmd.Shutdown :: post) =
      match processCmds ctx w acks pre with
      | Except.error e => Except.error e
      | Except.ok (w', a') => processCmds ctx w' (a' + 1) post := by
  rw [processCmds_append ctx pre (RolloutCmd.Shutdown :: post) w acks]
  cases processCmds ctx w acks pre with
  | error e => rfl
  | ok p => rfl

/-- C2 counterexample: because write_line swallows the append error, a
disk fault on the header's write_all followed by a successful flush lets
the run succeed with the header line lost — the fresh file's first
successfully-written line is then a later data record, not the session
header. -/
theorem writer_header_lost_counterexample :
    (rollout_writer toyWriterCtx writeFaultWriter (some 7)
        [RolloutCmd.AddResponseItems [4]]).map
      (fun r => r.1.contents) = Except.ok [Json.num 4] ∧
    Json.num 4 ≠
      Json.obj (("record_type", Json.str "session_meta") :: [("id", Json.num 7)]) :=
  ⟨rfl, by simp⟩

/-- C2 (amended): with a session header supplied, the writer resolves the
git info and attempts the session_meta-tagged header line as its first
write, before processing any mailbox command; provided the fresh file's
appends hit no swallowed disk fault, a successful run leaves that header
record as the file's first line. -/
theorem rollout_writer_header_first {Resp Ev SMeta Git : Type}
    (ctx : WriterCtx Resp Ev SMeta Git) (m : SMeta)
    (cmds : List (RolloutCmd Resp Ev (SessionMetaWithGit SMeta Git)))
    (w0 : JsonlWriter) (res : JsonlWriter × Nat)
    (hfresh : w0.contents = []) (hwfaults : w0.writeFaults = [])
    (hok : rollout_writer ctx w0 (some m) cmds = Except.ok res) :
    ∃ fields tail,
      ctx.serializeSessionMeta { meta := m, git := ctx.collect_git_info } =
        some fields ∧
      res.1.contents =
        Json.obj (("record_type", Json.str "session_meta") :: fields) :: tail := by
  simp only [rollout_writer] at hok
  cases hser : ctx.serializeSessionMeta { meta := m, git := ctx.collect_git_info } with
  | none =>
    rw [show sessionMetaLineJson ctx "session_meta"
        { meta := m, git := ctx.collect_git_info } = none by
      simp [sessionMetaLineJson, hser]] at hok
    simp [JsonlWriter.write_line] at hok
  | some fields =>
    rw [show sessionMetaLineJson ctx "session_meta"
        { meta := m, git := ctx.collect_git_info } =
        some (Json.obj (("record_type", Json.str "session_meta") :: fields)) by
      simp [sessionMetaLineJson, hser]] at hok
    cases hff : w0.flushFaults.getD w0.flushCalls false with
    | true =>
      rw [write_line_flush_fault w0 _ hff] at hok
      simp at hok
    | false =>
      rw [write_line_success w0 _ (by simp [hwfaults]) hff] at hok
      simp only at hok
      obtain ⟨⟨δ, hδ⟩, _, _⟩ :=
        processCmds_ok_fields ctx cmds _ 0 res.1 res.2 hok
      refine ⟨fields, δ, rfl, ?_⟩
      simp only at hδ
      rw [hδ, hfresh]
      simp

/-- C2 witness: a concrete run with the toy context writes the header as
the sole line of the fresh file. -/
theorem rollout_writer_header_first_witness :
    ∃ fields tail,
      toyWriterCtx.serializeSessionMeta
          { meta := 7, git := toyWriterCtx.collect_git_info } = some fields ∧
      ({ contents :=
           [Json.obj [("record_type", Json.str "session_meta"), ("id", Json.num 7)]]
         writeFaults := []
         flushFaults := []
         writeCalls := 1
         flushCalls := 1 } : JsonlWriter).contents =
        Json.obj (("record_type", Json.str "session_meta") :: fields) :: tail :=
  rollout_writer_header_first toyWriterCtx 7 [] freshWriter
    ({ contents :=
         [Json.obj [("record_type", Json.str "session_meta"), ("id", Json.num 7)]]
       writeFaults := []
       flushFaults := []
       writeCalls := 1
       flushCalls := 1 }, 0)
    rfl rfl rfl

/-- C3 counterexample: the writer task writes an Events batch without
applying any event persistence predicate — an event rejected by the
predicate is still written, tagged record_type "event". -/
theorem writer_events_counterexample :
    failEventPred 3 = false ∧
    (processCmds toyWriterCtx freshWriter 0 [RolloutCmd.AddEvents [3]]).map
      (fun r => r.1.contents) =
      Except.ok [Json.obj [("record_type", Json.str "event"),
        ("payload", Json.num 3)]] :=
  ⟨rfl, rfl⟩

/-- C3 (amended): the writer task writes every event of a dequeued
AddEvents batch as an "event"-tagged record line, with no predicate
filtering in the writer loop; the event persistence predicate is applied
only on the handle side, in record_event, before enqueueing. -/
theorem writer_events_unfiltered {Resp Ev SMeta Git : Type}
    (ctx : WriterCtx Resp Ev SMeta Git) (w : JsonlWriter) (events : List Ev)
    (is_persisted_event : Ev → Bool)
    (hwf : w.writeFaults = []) (hff : w.flushFaults = [])
    (hs : ∀ e ∈ events, (ctx.serializeEvent e).isSome = true) :
    (∃ w', writeEvents ctx w events = Except.ok w' ∧
      w'.contents = w.contents ++ events.map (fun e =>
        Json.obj (("record_type", Json.str "event") ::
          (ctx.serializeEvent e).getD []))) ∧
    (∀ e : Ev, @record_event Resp Ev (SessionMetaWithGit SMeta Git)
        is_persisted_event e =
      if is_persisted_event e then some (RolloutCmd.AddEvents [e]) else none) := by
  refine ⟨writeEvents_no_faults ctx events w hwf hff hs, ?_⟩
  intro e
  by_cases hp : is_persisted_event e <;> simp [record_event, hp]

/-- C3 witness: a concrete batch is written in full even under the
all-rejecting event predicate, which on the handle side enqueues
nothing. -/
theorem writer_events_unfiltered_witness :
    (∃ w', writeEvents toyWriterCtx freshWriter [3] = Except.ok w' ∧
      w'.contents = freshWriter.contents ++ [3].map (fun e =>
        Json.obj (("record_type", Json.str "event") ::
          (toyWriterCtx.serializeEvent e).getD []))) ∧
    (∀ e : Nat, @record_event Nat Nat (SessionMetaWithGit Nat Nat)
        failEventPred e =
      if failEventPred e then some (RolloutCmd.AddEvents [e]) else none) :=
  writer_events_unfiltered toyWriterCtx freshWriter [3] failEventPred rfl rfl
    (by intro e he; simp only [List.mem_singleton] at he; subst he; rfl)

/-- C5 counterexample: a disk fault in the append (write_all) call is
swallowed inside write_line — the line is lost from the file, yet
write_line returns Ok because only the flush result is checked. -/
theorem write_line_swallows_append_error :
    writeFaultWriter.writeFaults.getD writeFaultWriter.writeCalls false = true ∧
    writeFaultWriter.write_line (some (Json.num 1)) =
      Except.ok
        { contents := []
          writeFaults := [true]
          flushFaults := []
          writeCalls := 1
          flushCalls := 1 } :=
  ⟨rfl, rfl⟩

/-- C5 (amended): a serialization failure or a disk error during the flush
is propagated out of the writer task's loop as an error, terminating the
task; the append call's own error value is discarded inside write_line
(the record can only be lost silently when the subsequent flush
succeeds). -/
theorem write_line_flush_error_propagates {Resp Ev SMeta Git : Type}
    (ctx : WriterCtx Resp Ev SMeta Git) (w : JsonlWriter) (j : Json)
    (item : Resp) (items : List Resp) (acks : Nat) (e : IoErr)
    (rest : List (RolloutCmd Resp Ev (SessionMetaWithGit SMeta Git)))
    (hflush : w.flushFaults.getD w.flushCalls false = true)
    (hpred : ctx.is_persisted_response_item item = true)
    (herr : w.write_line (ctx.serializeResponseItem item) = Except.error e) :
    w.write_line none = Except.error IoErr.serializeFailed ∧
    w.write_line (some j) = Except.error IoErr.flushFailed ∧
    writeResponseItems ctx w (item :: items) = Except.error e ∧
    processCmds ctx w acks (RolloutCmd.AddResponseItems (item :: items) :: rest) =
      Except.error e := by
  have h2 : writeResponseItems ctx w (item :: items) = Except.error e := by
    unfold writeResponseItems
    simp [hpred, herr]
  refine ⟨rfl, write_line_flush_fault w j hflush, h2, ?_⟩
  unfold processCmds
  simp [h2]

/-- C5 witness: with a flush fault injected, the error surfaces out of the
whole command-processing loop. -/
theorem write_line_flush_error_propagates_witness :
    flushFaultWriter.write_line none = Except.error IoErr.serializeFailed ∧
    flushFaultWriter.write_line (some (Json.num 9)) =
      Except.error IoErr.flushFailed ∧
    writeResponseItems toyWriterCtx flushFaultWriter [4] =
      Except.error IoErr.flushFailed ∧
    processCmds toyWriterCtx flushFaultWriter 0
        [RolloutCmd.AddResponseItems [4]] =
      Except.error IoErr.flushFailed :=
  write_line_flush_error_propagates toyWriterCtx flushFaultWriter (Json.num 9)
    4 [] 0 IoErr.flushFailed [] rfl rfl rfl
